import Mathlib

/-!
Verification of the adaptive image-compression routines of the MovingSale
repository (scripts imageResizer, general variant and platform-aware/mobile
variant).

Modelling conventions:
- JavaScript numbers are modelled exactly as rationals (`ℚ`); pixel counts and
  byte sizes are naturals.
- JS `Math.round` / `Math.floor` on the nonnegative values arising here are
  `jsRoundNat` / `jsFloorNat`.
- `Math.sqrt` is abstracted as an explicit function parameter `sq : ℚ → ℚ`;
  theorems that need facts about it (such as `sqrt x ≤ 1` for `x ≤ 1`) take
  them as hypotheses.
- The browser canvas encoder (`canvas.toBlob`) is abstracted as an oracle
  giving the encoded byte size of the current image rendered at given
  dimensions and quality: total (`ℕ → ℕ → ℚ → ℕ`) for the general variant,
  which propagates encode rejections, and partial (`... → Option ℕ`) for the
  mobile variant, whose loop catches canvas errors. `FileReader` /
  `Image.onload` decoding is abstracted as an `Option ImgDims` parameter
  (`none` models a decode failure).
- Asynchronous suspension points are irrelevant to the computed values and are
  elided; each routine is a pure function of its oracles.
-/

namespace MovingSale

/-- JS `Math.round` on a nonnegative rational: round half up. -/
def jsRoundNat (x : ℚ) : ℕ := (Int.floor (x + 1/2)).toNat

/-- JS `Math.floor` on a nonnegative rational. -/
def jsFloorNat (x : ℚ) : ℕ := (Int.floor x).toNat

/-- A browser `File`: all the model needs is its byte size. -/
structure JsFile where
  size : ℕ
deriving DecidableEq, Repr

/-- Pixel dimensions discovered by decoding the source image. -/
structure ImgDims where
  width : ℕ
  height : ℕ
deriving DecidableEq, Repr

/-- A canvas-produced blob: its byte size, together with the canvas dimensions
it was rendered at (observable via decoding the result). -/
structure EncBlob where
  size : ℕ
  renderedWidth : ℕ
  renderedHeight : ℕ
deriving DecidableEq, Repr

/-- The value returned by `resizeImage` / carried in the `blob` field of
`prepareImageForUpload`'s result: the original `File` object itself, a fresh
canvas-produced blob, or JS `null` (the loop variable's initial value). -/
inductive BlobVal where
  | file (f : JsFile)
  | encoded (b : EncBlob)
  | null
deriving DecidableEq, Repr

/-- JS `blob.size`. Accessing `.size` on `null` would throw in JS; the `.null`
case is proved unreachable whenever the compression loop runs (see
`resizeIter_blob_isSome`), so the value returned here never matters. -/
def BlobVal.size : BlobVal → ℕ
  | .file f => f.size
  | .encoded b => b.size
  | .null => 0

/-- The settings object obtained from spreading the caller's config over
`DEFAULT_CONFIG`. `DEFAULT_CONFIG` has no `maxAttempts` key; a JS caller may
still put one in its config object, which the spread copies into the settings
object, so it is carried here as an `Option` — but no code ever reads it (both
loops use a local constant). `mimeType` and `debug` only select the encoder
and logging and are absorbed by the encoder oracle. -/
structure Config where
  maxSizeBytes : ℕ := 8 * 1024 * 1024
  maxWidth : ℕ := 4096
  maxHeight : ℕ := 4096
  quality : ℚ := 92/100
  maxAttempts : Option ℕ := none
deriving DecidableEq, Repr

/-- The `DEFAULT_CONFIG` object (both source variants define the same one). -/
def DEFAULT_CONFIG : Config := {}

/-- Source `calculateDimensions` (identical in both variants): scale down,
preserving aspect ratio, so that neither dimension exceeds the max; otherwise
return the input dimensions unchanged. -/
def calculateDimensions (width height maxWidth maxHeight : ℕ) : ℕ × ℕ :=
  if maxWidth < width ∨ maxHeight < height then
    let widthR : ℚ := (maxWidth : ℚ) / (width : ℚ)
    let heightR : ℚ := (maxHeight : ℚ) / (height : ℚ)
    let r := min widthR heightR
    (jsRoundNat ((width : ℚ) * r), jsRoundNat ((height : ℚ) * r))
  else
    (width, height)

/-- What `drawToCanvas` observably does: either one direct resize to the
target, or a chain of intermediate halving canvases followed by a final resize
to the target. -/
inductive RenderPlan where
  | single (w h : ℕ)
  | progressive (steps : List (ℕ × ℕ)) (w h : ℕ)
deriving DecidableEq, Repr

/-- The `while (currentWidth / 2 > targetWidth)` halving loop of
`drawToCanvas`, fuel-recursive (the JS loop does not terminate when
`targetWidth = 0` and `currentWidth = 1`; `fuel = currentWidth` is enough
whenever `targetWidth ≥ 1`, see `halveChain_isSpec`). Note
`currentWidth / 2 > targetWidth` in JS reals is exactly
`2 * targetWidth < currentWidth` on naturals. -/
def halveChain : ℕ → ℕ → ℕ → ℕ → List (ℕ × ℕ)
  | 0, _, _, _ => []
  | fuel + 1, cw, ch, tw =>
    if 2 * tw < cw then
      let cw' := jsRoundNat ((cw : ℚ) / 2)
      let ch' := jsRoundNat ((ch : ℚ) / 2)
      (cw', ch') :: halveChain fuel cw' ch' tw
    else []

/-- Source `drawToCanvas`: progressive multi-step halving when enabled and the
scale-down ratio `img.width / targetWidth` exceeds 2 (in JS reals this
comparison is exactly `2 * targetWidth < img.width`, including the
`targetWidth = 0` edge case where the ratio is `Infinity` or `NaN`), otherwise
a single-step resize. -/
def drawToCanvas (img : ImgDims) (targetWidth targetHeight : ℕ)
    (useProgressiveResize : Bool := true) : RenderPlan :=
  if useProgressiveResize ∧ 2 * targetWidth < img.width then
    .progressive (halveChain img.width img.width img.height targetWidth)
      targetWidth targetHeight
  else
    .single targetWidth targetHeight

/-- Errors thrown by the routines (as JS exceptions / promise rejections). -/
inductive JsError where
  | readFailed
  | loadFailed
  | canvasErrors
  | noBlob
deriving DecidableEq, Repr

/-- The mutable locals of the `while (attempts < maxAttempts)` loop of the
general `resizeImage`. `done` records that the loop has exited via one of its
two `break` statements. -/
structure LoopState where
  width : ℕ
  height : ℕ
  quality : ℚ
  blob : Option EncBlob
  attempts : ℕ
  done : Bool
deriving DecidableEq, Repr

/-- One iteration of the general `resizeImage` loop (part_001 lines 397-439),
including the `attempts < maxAttempts` guard with the local constant
`maxAttempts = 10`. When the guard fails or the loop has already exited, the
state is frozen. -/
def resizeStep (maxSizeBytes : ℕ) (enc : ℕ → ℕ → ℚ → ℕ) (sq : ℚ → ℚ)
    (s : LoopState) : LoopState :=
  if s.done ∨ 10 ≤ s.attempts then
    { s with done := true }
  else
    let n := s.attempts + 1
    let b : EncBlob := ⟨enc s.width s.height s.quality, s.width, s.height⟩
    if b.size ≤ maxSizeBytes then
      { s with blob := some b, attempts := n, done := true }
    else
      let r : ℚ := (maxSizeBytes : ℚ) / (b.size : ℚ)
      if 1/2 < s.quality then
        let qualityReduction := max (1/10) ((1 - r) * (3/10))
        { s with
            quality := max (1/2) (s.quality - qualityReduction),
            blob := some b, attempts := n }
      else
        let dimensionScale := max (7/10) (sq (r * (9/10)))
        let w' := jsRoundNat ((s.width : ℚ) * dimensionScale)
        let h' := jsRoundNat ((s.height : ℚ) * dimensionScale)
        { s with
            width := w', height := h', blob := some b, attempts := n,
            done := decide (w' < 800 ∨ h' < 600) }

/-- The `while` loop of `resizeImage`, as fuel recursion: run `resizeStep`
`fuel` times (the guard inside `resizeStep` freezes the state once the loop
has exited, so `fuel = 10` runs the loop to completion). -/
def resizeLoop (maxSizeBytes : ℕ) (enc : ℕ → ℕ → ℚ → ℕ) (sq : ℚ → ℚ) :
    ℕ → LoopState → LoopState
  | 0, s => s
  | fuel + 1, s => resizeLoop maxSizeBytes enc sq fuel (resizeStep maxSizeBytes enc sq s)

/-- What `resizeImage` produces: the returned value plus the number of loop
iterations executed (i.e. render/encode attempts; the loop counter). -/
structure ResizeOutcome where
  value : BlobVal
  attempts : ℕ
deriving DecidableEq, Repr

/-- The initial loop state of `resizeImage`: dimensions clamped by
`calculateDimensions`, configured starting quality, `blob = null`,
`attempts = 0`. -/
def resizeInit (img : ImgDims) (cfg : Config) : LoopState :=
  let d0 := calculateDimensions img.width img.height cfg.maxWidth cfg.maxHeight
  ⟨d0.1, d0.2, cfg.quality, none, 0, false⟩

/-- Source `resizeImage` (general variant, part_001 lines 359-446): identity
fast path when the file already fits, otherwise decode, clamp dimensions, and
run the quality/dimension reduction loop (at most 10 iterations of
`resizeStep`, after which the state is a fixpoint up to the `done` flag).
Decode failure rejects; the general variant's encode rejections are not
modelled (the encoder oracle is total). -/
def resizeImage (file : JsFile) (cfg : Config) (decoded : Option ImgDims)
    (enc : ℕ → ℕ → ℚ → ℕ) (sq : ℚ → ℚ) : Except JsError ResizeOutcome :=
  if file.size ≤ cfg.maxSizeBytes then
    .ok ⟨.file file, 0⟩
  else
    match decoded with
    | none => .error .loadFailed
    | some img =>
      let s := resizeLoop cfg.maxSizeBytes enc sq 10 (resizeInit img cfg)
      .ok ⟨match s.blob with
           | some b => .encoded b
           | none => .null, s.attempts⟩

/-- The record returned by `prepareImageForUpload`. -/
structure PrepareResult where
  blob : BlobVal
  originalSize : ℕ
  finalSize : ℕ
  wasResized : Bool
deriving DecidableEq, Repr

/-- Source `prepareImageForUpload` (part_001 lines 456-480): fast path when
`needsProcessing` is false, otherwise delegate to `resizeImage`.
`wasResized` is the JS reference comparison `blob !== file`, which in the
model is inequality with the original `File` value. -/
def prepareImageForUpload (file : JsFile) (cfg : Config)
    (decoded : Option ImgDims) (enc : ℕ → ℕ → ℚ → ℕ) (sq : ℚ → ℚ) :
    Except JsError PrepareResult :=
  if file.size ≤ cfg.maxSizeBytes then
    .ok ⟨.file file, file.size, file.size, false⟩
  else
    match resizeImage file cfg decoded enc sq with
    | .error e => .error e
    | .ok out =>
      .ok ⟨out.value, file.size, out.value.size,
        decide (out.value ≠ .file file)⟩

/-- The record returned by `getIOSSafeCanvasLimits`. -/
structure CanvasLimits where
  maxWidth : ℕ
  maxHeight : ℕ
  maxPixels : ℕ
deriving DecidableEq, Repr

/-- Source `getIOSSafeCanvasLimits` (part_002 lines 59-80); the runtime
platform check is abstracted as the boolean `isIOS`. -/
def getIOSSafeCanvasLimits (isIOS : Bool) : CanvasLimits :=
  if isIOS then ⟨2048, 2048, 4 * 1024 * 1024⟩
  else ⟨4096, 4096, 16 * 1024 * 1024⟩

/-- Initial target dimensions of `forceConvertToJpeg` (part_002 lines
419-440): clamp the configured maxima by the canvas limits, scale the source
into them, then — if the total pixel count still exceeds the canvas pixel
limit — shrink by `sqrt(maxPixels / totalPixels)` with `Math.floor`. (That
last branch is proved unreachable: see `initialMobileDims_eq_calculate`.) -/
def initialMobileDims (img : ImgDims) (cfg : Config) (limits : CanvasLimits)
    (sq : ℚ → ℚ) : ℕ × ℕ :=
  let effectiveMaxWidth := min cfg.maxWidth limits.maxWidth
  let effectiveMaxHeight := min cfg.maxHeight limits.maxHeight
  let d0 := calculateDimensions img.width img.height effectiveMaxWidth effectiveMaxHeight
  let totalPixels := d0.1 * d0.2
  if limits.maxPixels < totalPixels then
    let scale := sq ((limits.maxPixels : ℚ) / (totalPixels : ℚ))
    (jsFloorNat ((d0.1 : ℚ) * scale), jsFloorNat ((d0.2 : ℚ) * scale))
  else d0

/-- The mutable locals of the `forceConvertToJpeg` loop. `failed` records the
`throw` inside the `catch` block (dimensions fell below 400×300 after canvas
errors); `done` records the two `break` exits. -/
structure MobileLoopState where
  width : ℕ
  height : ℕ
  quality : ℚ
  blob : Option EncBlob
  attempts : ℕ
  done : Bool
  failed : Bool
deriving DecidableEq, Repr

/-- One iteration of the `forceConvertToJpeg` loop (part_002 lines 449-499),
local constant `maxAttempts = 15`, quality floor `0.35`, dimension scale
`max(0.6, sqrt(sizeRatio * 0.8))`, minimums 400×300. An encoder result of
`none` models the `catch (canvasError)` path: shrink both dimensions to 70%
(rounded) and either retry on the next iteration or, if now below the
minimums, abort fatally. -/
def forceStep (maxSizeBytes : ℕ) (enc : ℕ → ℕ → ℚ → Option ℕ) (sq : ℚ → ℚ)
    (s : MobileLoopState) : MobileLoopState :=
  if s.failed ∨ s.done ∨ 15 ≤ s.attempts then s
  else
    let n := s.attempts + 1
    match enc s.width s.height s.quality with
    | some sz =>
      let b : EncBlob := ⟨sz, s.width, s.height⟩
      if sz ≤ maxSizeBytes then
        { s with blob := some b, attempts := n, done := true }
      else
        let r : ℚ := (maxSizeBytes : ℚ) / (sz : ℚ)
        if 35/100 < s.quality then
          let qualityReduction := max (1/10) ((1 - r) * (3/10))
          { s with
              quality := max (35/100) (s.quality - qualityReduction),
              blob := some b, attempts := n }
        else
          let dimensionScale := max (6/10) (sq (r * (8/10)))
          let w' := jsRoundNat ((s.width : ℚ) * dimensionScale)
          let h' := jsRoundNat ((s.height : ℚ) * dimensionScale)
          { s with
              width := w', height := h', blob := some b, attempts := n,
              done := decide (w' < 400 ∨ h' < 300) }
    | none =>
      let w' := jsRoundNat ((s.width : ℚ) * (7/10))
      let h' := jsRoundNat ((s.height : ℚ) * (7/10))
      { s with
          width := w', height := h', attempts := n,
          failed := decide (w' < 400 ∨ h' < 300) }

/-- The `while` loop of `forceConvertToJpeg`, as fuel recursion (`fuel = 15`
runs the loop to completion). -/
def forceLoop (maxSizeBytes : ℕ) (enc : ℕ → ℕ → ℚ → Option ℕ) (sq : ℚ → ℚ) :
    ℕ → MobileLoopState → MobileLoopState
  | 0, s => s
  | fuel + 1, s => forceLoop maxSizeBytes enc sq fuel (forceStep maxSizeBytes enc sq s)

/-- What a successful `forceConvertToJpeg` produces: the final blob (by
construction always canvas-produced, never the source `File` object) plus the
number of loop iterations executed. -/
structure MobileOutcome where
  blob : EncBlob
  attempts : ℕ
deriving DecidableEq, Repr

/-- The initial loop state of `forceConvertToJpeg`: dimensions from
`initialMobileDims`, configured starting quality, `blob = null`,
`attempts = 0`. -/
def mobileInit (img : ImgDims) (cfg : Config) (isIOS : Bool)
    (sq : ℚ → ℚ) : MobileLoopState :=
  let d0 := initialMobileDims img cfg (getIOSSafeCanvasLimits isIOS) sq
  ⟨d0.1, d0.2, cfg.quality, none, 0, false, false⟩

/-- Source `forceConvertToJpeg` (part_002 lines 380-516): no fast path — the
source is always read, decoded and re-encoded through the canvas pipeline.
Read or decode failures are fatal immediately. After the loop: a `throw` that
happened inside the loop propagates; a still-`null` blob is fatal; otherwise
the blob is returned even when it exceeds the budget (only a warning is
logged). Inside the loop, renders go through `drawToCanvas` with
`useProgressiveResize = false`. -/
def forceConvertToJpeg (file : JsFile) (cfg : Config) (isIOS : Bool)
    (readOk : Bool) (decoded : Option ImgDims)
    (enc : ℕ → ℕ → ℚ → Option ℕ) (sq : ℚ → ℚ) :
    Except JsError MobileOutcome :=
  if readOk = false then .error .readFailed
  else
    match decoded with
    | none => .error .loadFailed
    | some img =>
      let s := forceLoop cfg.maxSizeBytes enc sq 15 (mobileInit img cfg isIOS sq)
      if s.failed then .error .canvasErrors
      else
        match s.blob with
        | none => .error .noBlob
        | some b => .ok ⟨b, s.attempts⟩

/-- The record returned by `processImageForMobile`. -/
structure MobileResult where
  blob : EncBlob
  originalSize : ℕ
  finalSize : ℕ
  wasProcessed : Bool
deriving DecidableEq, Repr

/-- Defaults `processImageForMobile` spreads the caller's config over
(part_002 lines 527-534). -/
def processImageForMobileDefaults : Config :=
  { maxSizeBytes := 5 * 1024 * 1024, maxWidth := 3840, maxHeight := 3840,
    quality := 85/100 }

/-- Source `processImageForMobile` (part_002 lines 526-555): delegate to
`forceConvertToJpeg` and wrap; `wasProcessed` is the literal `true`. -/
def processImageForMobile (file : JsFile) (cfg : Config) (isIOS : Bool)
    (readOk : Bool) (decoded : Option ImgDims)
    (enc : ℕ → ℕ → ℚ → Option ℕ) (sq : ℚ → ℚ) :
    Except JsError MobileResult :=
  match forceConvertToJpeg file cfg isIOS readOk decoded enc sq with
  | .error e => .error e
  | .ok out => .ok ⟨out.blob, file.size, out.blob.size, true⟩

/-- Invariant for claim C4: as long as the loop is still running its width and
height are at least the 800×600 minimums; they never exceed the configured
maxima; and every blob stored so far was rendered within those bounds. -/
def DimInv (maxW maxH : ℕ) (s : LoopState) : Prop :=
  (s.done = false → 800 ≤ s.width ∧ 600 ≤ s.height) ∧
  s.width ≤ maxW ∧ s.height ≤ maxH ∧
  ∀ b, s.blob = some b →
    800 ≤ b.renderedWidth ∧ b.renderedWidth ≤ maxW ∧
    600 ≤ b.renderedHeight ∧ b.renderedHeight ≤ maxH

/-- Invariant for claim C4's unconditional half: the loop dimensions, and the
rendered dimensions of every blob stored so far, never exceed the configured
maxima — with no assumption on the source's size. -/
def MaxInv (maxW maxH : ℕ) (s : LoopState) : Prop :=
  s.width ≤ maxW ∧ s.height ≤ maxH ∧
  ∀ b, s.blob = some b →
    b.renderedWidth ≤ maxW ∧ b.renderedHeight ≤ maxH

/-- The spec's quality-update formula, written from its words: "the next
quality equals max(floor, quality - max(0.1, (1 - sizeRatio) * 0.3))". -/
def specNextQuality (floor q r : ℚ) : ℚ :=
  max floor (q - max (1/10) ((1 - r) * (3/10)))

/-- The spec's dimension-update formula, written from its words: "the next
width and height equal the current ones multiplied by
max(dimensionFloor, sqrt(sizeRatio * safetyFactor)), rounded". -/
def specNextDim (dimFloor safety : ℚ) (sq : ℚ → ℚ) (d : ℕ) (r : ℚ) : ℕ :=
  jsRoundNat ((d : ℚ) * max dimFloor (sq (r * safety)))

/-- The spec's description of the progressive render, written from its words:
the list is produced "by repeatedly halving the current dimensions (rounding
each step)" exactly while the current width still exceeds 2× the target
width, and stops as soon as one more halving would fall within 2× of the
target. -/
def isSpecHalvingChain (tw : ℕ) : ℕ → ℕ → List (ℕ × ℕ) → Bool
  | cw, _, [] => decide (cw ≤ 2 * tw)
  | cw, ch, (w, h) :: rest =>
    decide (2 * tw < cw) && decide (w = jsRoundNat ((cw : ℚ) / 2)) &&
      decide (h = jsRoundNat ((ch : ℚ) / 2)) && isSpecHalvingChain tw w h rest

/-! ## Numeric helper lemmas -/

theorem jsRoundNat_le_of_le {x : ℚ} {n : ℕ} (h : x ≤ (n : ℚ)) :
    jsRoundNat x ≤ n := by
  unfold jsRoundNat
  rw [Int.toNat_le, Int.floor_le_iff]
  push_cast
  linarith

theorem jsRoundNat_cast_le {x : ℚ} (hx : 0 ≤ x) :
    (jsRoundNat x : ℚ) ≤ x + 1/2 := by
  unfold jsRoundNat
  have h0 : (0 : ℤ) ≤ Int.floor (x + 1/2) :=
    Int.floor_nonneg.mpr (by linarith)
  have h1 : (((Int.floor (x + 1/2)).toNat : ℕ) : ℚ) =
      ((Int.floor (x + 1/2) : ℤ) : ℚ) := by
    exact_mod_cast congrArg (fun z : ℤ => (z : ℚ)) (Int.toNat_of_nonneg h0)
  rw [h1]
  exact Int.floor_le _

theorem sub_half_le_jsRoundNat {x : ℚ} (hx : 0 ≤ x) :
    x - 1/2 ≤ (jsRoundNat x : ℚ) := by
  unfold jsRoundNat
  have h0 : (0 : ℤ) ≤ Int.floor (x + 1/2) :=
    Int.floor_nonneg.mpr (by linarith)
  have h1 : (((Int.floor (x + 1/2)).toNat : ℕ) : ℚ) =
      ((Int.floor (x + 1/2) : ℤ) : ℚ) := by
    exact_mod_cast congrArg (fun z : ℤ => (z : ℚ)) (Int.toNat_of_nonneg h0)
  rw [h1]
  have h2 := Int.sub_one_lt_floor (x + 1/2)
  have h3 : ((Int.floor (x + 1/2) : ℤ) : ℚ) > x + 1/2 - 1 := by
    exact_mod_cast h2
  linarith

theorem jsRoundNat_mul_le_self {w : ℕ} {c : ℚ} (hc : c ≤ 1) :
    jsRoundNat ((w : ℚ) * c) ≤ w :=
  jsRoundNat_le_of_le (by nlinarith [Nat.cast_nonneg (α := ℚ) w])

/-! ## Lemmas about `calculateDimensions` -/

theorem calculateDimensions_le_max (w h mW mH : ℕ) :
    (calculateDimensions w h mW mH).1 ≤ mW ∧
    (calculateDimensions w h mW mH).2 ≤ mH := by
  unfold calculateDimensions
  split_ifs with hif
  · have hwr : (0 : ℚ) ≤ (mW : ℚ) / (w : ℚ) :=
      div_nonneg (Nat.cast_nonneg _) (Nat.cast_nonneg _)
    have hhr : (0 : ℚ) ≤ (mH : ℚ) / (h : ℚ) :=
      div_nonneg (Nat.cast_nonneg _) (Nat.cast_nonneg _)
    constructor
    · apply jsRoundNat_le_of_le
      rcases Nat.eq_zero_or_pos w with hw | hw
      · simp [hw]
      · have hwq : (0 : ℚ) < (w : ℚ) := by exact_mod_cast hw
        have h1 : min ((mW : ℚ) / w) ((mH : ℚ) / h) ≤ (mW : ℚ) / w :=
          min_le_left _ _
        calc (w : ℚ) * min ((mW : ℚ) / w) ((mH : ℚ) / h)
            ≤ (w : ℚ) * ((mW : ℚ) / w) := by
              exact mul_le_mul_of_nonneg_left h1 (le_of_lt hwq)
          _ = (mW : ℚ) := by field_simp
    · apply jsRoundNat_le_of_le
      rcases Nat.eq_zero_or_pos h with hh | hh
      · simp [hh]
      · have hhq : (0 : ℚ) < (h : ℚ) := by exact_mod_cast hh
        have h1 : min ((mW : ℚ) / w) ((mH : ℚ) / h) ≤ (mH : ℚ) / h :=
          min_le_right _ _
        calc (h : ℚ) * min ((mW : ℚ) / w) ((mH : ℚ) / h)
            ≤ (h : ℚ) * ((mH : ℚ) / h) := by
              exact mul_le_mul_of_nonneg_left h1 (le_of_lt hhq)
          _ = (mH : ℚ) := by field_simp
  · exact ⟨le_of_not_lt fun hw => hif (Or.inl hw),
      le_of_not_lt fun hh => hif (Or.inr hh)⟩

theorem calculateDimensions_ratio_le_one {w h mW mH : ℕ}
    (hif : mW < w ∨ mH < h) :
    min ((mW : ℚ) / (w : ℚ)) ((mH : ℚ) / (h : ℚ)) ≤ 1 := by
  rcases hif with hw | hh
  · refine le_trans (min_le_left _ _) ?_
    have hwq : (0 : ℚ) < (w : ℚ) := by
      exact_mod_cast lt_of_le_of_lt (Nat.zero_le mW) hw
    rw [div_le_one hwq]
    exact_mod_cast le_of_lt hw
  · refine le_trans (min_le_right _ _) ?_
    have hhq : (0 : ℚ) < (h : ℚ) := by
      exact_mod_cast lt_of_le_of_lt (Nat.zero_le mH) hh
    rw [div_le_one hhq]
    exact_mod_cast le_of_lt hh

theorem calculateDimensions_le_self (w h mW mH : ℕ) :
    (calculateDimensions w h mW mH).1 ≤ w ∧
    (calculateDimensions w h mW mH).2 ≤ h := by
  unfold calculateDimensions
  split_ifs with hif
  · exact ⟨jsRoundNat_mul_le_self (calculateDimensions_ratio_le_one hif),
      jsRoundNat_mul_le_self (calculateDimensions_ratio_le_one hif)⟩
  · exact ⟨le_refl _, le_refl _⟩

/-! ## One-step lemmas for the general `resizeImage` loop -/

theorem resizeStep_quality_le (m : ℕ) (enc : ℕ → ℕ → ℚ → ℕ) (sq : ℚ → ℚ)
    (s : LoopState) : (resizeStep m enc sq s).quality ≤ s.quality := by
  dsimp only [resizeStep]
  split_ifs with h1 h2 h3
  · exact le_refl _
  · exact le_refl _
  · have hred : (1/10 : ℚ) ≤
        max (1/10) ((1 - (m : ℚ) / ((enc s.width s.height s.quality : ℕ) : ℚ)) * (3/10)) :=
      le_max_left _ _
    exact max_le (le_of_lt h3) (by linarith)
  · exact le_refl _

theorem resizeStep_quality_floor (m : ℕ) (enc : ℕ → ℕ → ℚ → ℕ) (sq : ℚ → ℚ)
    (s : LoopState) (hq : s.quality = 1/2) :
    (resizeStep m enc sq s).quality = 1/2 := by
  dsimp only [resizeStep]
  split_ifs with h1 h2 h3
  · exact hq
  · exact hq
  · rw [hq] at h3; exact absurd h3 (lt_irrefl _)
  · exact hq

theorem resizeStep_dims_le (m : ℕ) (enc : ℕ → ℕ → ℚ → ℕ) (sq : ℚ → ℚ)
    (hsq : ∀ x : ℚ, 0 ≤ x → x ≤ 9/10 → sq x ≤ 1) (s : LoopState) :
    (resizeStep m enc sq s).width ≤ s.width ∧
    (resizeStep m enc sq s).height ≤ s.height := by
  dsimp only [resizeStep]
  split_ifs with h1 h2 h3
  · exact ⟨le_refl _, le_refl _⟩
  · exact ⟨le_refl _, le_refl _⟩
  · exact ⟨le_refl _, le_refl _⟩
  · set sz := enc s.width s.height s.quality with hsz
    have hszpos : (0 : ℚ) < (sz : ℚ) := by
      have : m < sz := lt_of_not_le h2
      exact_mod_cast lt_of_le_of_lt (Nat.zero_le m) this
    have hr0 : (0 : ℚ) ≤ (m : ℚ) / (sz : ℚ) :=
      div_nonneg (Nat.cast_nonneg _) (le_of_lt hszpos)
    have hr1 : (m : ℚ) / (sz : ℚ) ≤ 1 := by
      rw [div_le_one hszpos]
      exact_mod_cast le_of_lt (lt_of_not_le h2)
    have hscale : max (7/10 : ℚ) (sq ((m : ℚ) / (sz : ℚ) * (9/10))) ≤ 1 := by
      apply max_le (by norm_num)
      exact hsq _ (by nlinarith) (by nlinarith)
    exact ⟨jsRoundNat_mul_le_self hscale, jsRoundNat_mul_le_self hscale⟩

theorem resizeStep_attempts_le (m : ℕ) (enc : ℕ → ℕ → ℚ → ℕ) (sq : ℚ → ℚ)
    (s : LoopState) (h : s.attempts ≤ 10) :
    (resizeStep m enc sq s).attempts ≤ 10 := by
  dsimp only [resizeStep]
  split_ifs with h1 h2 h3 <;> simp_all <;> omega

theorem resizeStep_attempts_mono (m : ℕ) (enc : ℕ → ℕ → ℚ → ℕ) (sq : ℚ → ℚ)
    (s : LoopState) : s.attempts ≤ (resizeStep m enc sq s).attempts := by
  dsimp only [resizeStep]
  split_ifs with h1 h2 h3 <;> simp

theorem resizeStep_blob_isSome (m : ℕ) (enc : ℕ → ℕ → ℚ → ℕ) (sq : ℚ → ℚ)
    (s : LoopState) (h : s.blob.isSome) :
    (resizeStep m enc sq s).blob.isSome := by
  dsimp only [resizeStep]
  split_ifs with h1 h2 h3 <;> simp_all

theorem resizeStep_sets_blob (m : ℕ) (enc : ℕ → ℕ → ℚ → ℕ) (sq : ℚ → ℚ)
    (s : LoopState) (hd : s.done = false) (ha : s.attempts < 10) :
    (resizeStep m enc sq s).blob.isSome := by
  dsimp only [resizeStep]
  have hguard : ¬(s.done = true ∨ 10 ≤ s.attempts) := by
    simp [hd]; omega
  rw [if_neg hguard]
  split_ifs with h2 h3 <;> simp

/-! ## One-step lemmas for the `forceConvertToJpeg` loop -/

theorem forceStep_quality_le (m : ℕ) (enc : ℕ → ℕ → ℚ → Option ℕ)
    (sq : ℚ → ℚ) (s : MobileLoopState) :
    (forceStep m enc sq s).quality ≤ s.quality := by
  dsimp only [forceStep]
  by_cases h1 : (s.failed = true ∨ s.done = true ∨ 15 ≤ s.attempts)
  · rw [if_pos h1]
  · rw [if_neg h1]
    cases henc : enc s.width s.height s.quality with
    | none => exact le_refl _
    | some sz =>
      dsimp only
      split_ifs with h2 h3
      · exact le_refl _
      · have hred : (1/10 : ℚ) ≤
            max (1/10) ((1 - (m : ℚ) / ((sz : ℕ) : ℚ)) * (3/10)) :=
          le_max_left _ _
        exact max_le (le_of_lt h3) (by linarith)
      · exact le_refl _

theorem forceStep_quality_floor (m : ℕ) (enc : ℕ → ℕ → ℚ → Option ℕ)
    (sq : ℚ → ℚ) (s : MobileLoopState) (hq : s.quality = 35/100) :
    (forceStep m enc sq s).quality = 35/100 := by
  dsimp only [forceStep]
  by_cases h1 : (s.failed = true ∨ s.done = true ∨ 15 ≤ s.attempts)
  · rw [if_pos h1]; exact hq
  · rw [if_neg h1]
    cases henc : enc s.width s.height s.quality with
    | none => exact hq
    | some sz =>
      dsimp only
      split_ifs with h2 h3
      · exact hq
      · rw [hq] at h3; exact absurd h3 (lt_irrefl _)
      · exact hq

theorem forceStep_dims_le (m : ℕ) (enc : ℕ → ℕ → ℚ → Option ℕ)
    (sq : ℚ → ℚ) (hsq : ∀ x : ℚ, 0 ≤ x → x ≤ 9/10 → sq x ≤ 1)
    (s : MobileLoopState) :
    (forceStep m enc sq s).width ≤ s.width ∧
    (forceStep m enc sq s).height ≤ s.height := by
  dsimp only [forceStep]
  by_cases h1 : (s.failed = true ∨ s.done = true ∨ 15 ≤ s.attempts)
  · rw [if_pos h1]; exact ⟨le_refl _, le_refl _⟩
  · rw [if_neg h1]
    cases henc : enc s.width s.height s.quality with
    | none =>
      dsimp only
      have h710 : (7/10 : ℚ) ≤ 1 := by norm_num
      exact ⟨jsRoundNat_mul_le_self h710, jsRoundNat_mul_le_self h710⟩
    | some sz =>
      dsimp only
      split_ifs with h2 h3
      · exact ⟨le_refl _, le_refl _⟩
      · exact ⟨le_refl _, le_refl _⟩
      · have hszpos : (0 : ℚ) < (sz : ℚ) := by
          have hlt : m < sz := lt_of_not_le h2
          exact_mod_cast lt_of_le_of_lt (Nat.zero_le m) hlt
        have hr0 : (0 : ℚ) ≤ (m : ℚ) / (sz : ℚ) :=
          div_nonneg (Nat.cast_nonneg _) (le_of_lt hszpos)
        have hr1 : (m : ℚ) / (sz : ℚ) ≤ 1 := by
          rw [div_le_one hszpos]
          exact_mod_cast le_of_lt (lt_of_not_le h2)
        have hscale : max (6/10 : ℚ) (sq ((m : ℚ) / (sz : ℚ) * (8/10))) ≤ 1 := by
          apply max_le (by norm_num)
          exact hsq _ (by nlinarith) (by nlinarith)
        exact ⟨jsRoundNat_mul_le_self hscale, jsRoundNat_mul_le_self hscale⟩

theorem forceStep_attempts_le (m : ℕ) (enc : ℕ → ℕ → ℚ → Option ℕ)
    (sq : ℚ → ℚ) (s : MobileLoopState) (h : s.attempts ≤ 15) :
    (forceStep m enc sq s).attempts ≤ 15 := by
  dsimp only [forceStep]
  by_cases h1 : (s.failed = true ∨ s.done = true ∨ 15 ≤ s.attempts)
  · rw [if_pos h1]; exact h
  · rw [if_neg h1]
    have ha : ¬ 15 ≤ s.attempts := fun hge => h1 (Or.inr (Or.inr hge))
    cases henc : enc s.width s.height s.quality with
    | none => dsimp only; omega
    | some sz =>
      dsimp only
      split_ifs with h2 h3 <;> dsimp only <;> omega

theorem forceStep_attempts_mono (m : ℕ) (enc : ℕ → ℕ → ℚ → Option ℕ)
    (sq : ℚ → ℚ) (s : MobileLoopState) :
    s.attempts ≤ (forceStep m enc sq s).attempts := by
  dsimp only [forceStep]
  by_cases h1 : (s.failed = true ∨ s.done = true ∨ 15 ≤ s.attempts)
  · rw [if_pos h1]
  · rw [if_neg h1]
    cases henc : enc s.width s.height s.quality with
    | none => dsimp only; omega
    | some sz =>
      dsimp only
      split_ifs with h2 h3 <;> dsimp only <;> omega

/-! ## Iterate-level helpers -/

theorem iterate_preserves {α : Type} (f : α → α) (P : α → Prop)
    (hf : ∀ s, P s → P (f s)) : ∀ (k : ℕ) (s : α), P s → P (f^[k] s) := by
  intro k
  induction k with
  | zero => intro s hs; exact hs
  | succ k ih =>
    intro s hs
    rw [Function.iterate_succ_apply]
    exact ih _ (hf _ hs)

theorem resizeStep_preserves_DimInv (m : ℕ) (enc : ℕ → ℕ → ℚ → ℕ)
    (sq : ℚ → ℚ) (hsq : ∀ x : ℚ, 0 ≤ x → x ≤ 9/10 → sq x ≤ 1)
    (maxW maxH : ℕ) (s : LoopState) (h : DimInv maxW maxH s) :
    DimInv maxW maxH (resizeStep m enc sq s) := by
  obtain ⟨hmin, hW, hH, hblob⟩ := h
  dsimp only [resizeStep]
  by_cases h1 : (s.done = true ∨ 10 ≤ s.attempts)
  · rw [if_pos h1]
    exact ⟨fun hfalse => by simp at hfalse, hW, hH, hblob⟩
  · rw [if_neg h1]
    have hdone : s.done = false := by
      rcases Bool.eq_false_or_eq_true s.done with h | h
      · exact absurd (Or.inl h) h1
      · exact h
    obtain ⟨hw800, hh600⟩ := hmin hdone
    split_ifs with h2 h3
    · -- success break: blob := rendered at current dims
      refine ⟨fun hfalse => by simp at hfalse, hW, hH, ?_⟩
      intro b hb
      injection hb with hb
      subst hb
      exact ⟨hw800, hW, hh600, hH⟩
    · -- quality branch: dims untouched
      refine ⟨fun _ => ⟨hw800, hh600⟩, hW, hH, ?_⟩
      intro b hb
      injection hb with hb
      subst hb
      exact ⟨hw800, hW, hh600, hH⟩
    · -- dimension branch
      have hszpos : (0 : ℚ) < ((enc s.width s.height s.quality : ℕ) : ℚ) := by
        have hlt : m < enc s.width s.height s.quality := lt_of_not_le h2
        exact_mod_cast lt_of_le_of_lt (Nat.zero_le m) hlt
      have hr0 : (0 : ℚ) ≤ (m : ℚ) / ((enc s.width s.height s.quality : ℕ) : ℚ) :=
        div_nonneg (Nat.cast_nonneg _) (le_of_lt hszpos)
      have hr1 : (m : ℚ) / ((enc s.width s.height s.quality : ℕ) : ℚ) ≤ 1 := by
        rw [div_le_one hszpos]
        exact_mod_cast le_of_lt (lt_of_not_le h2)
      have hscale :
          max (7/10 : ℚ)
            (sq ((m : ℚ) / ((enc s.width s.height s.quality : ℕ) : ℚ) * (9/10))) ≤ 1 := by
        apply max_le (by norm_num)
        exact hsq _ (by nlinarith) (by nlinarith)
      refine ⟨?_, le_trans (jsRoundNat_mul_le_self hscale) hW,
        le_trans (jsRoundNat_mul_le_self hscale) hH, ?_⟩
      · intro hnd
        simp only [decide_eq_false_iff_not, not_or, not_lt] at hnd
        exact ⟨hnd.1, hnd.2⟩
      · intro b hb
        injection hb with hb
        subst hb
        exact ⟨hw800, hW, hh600, hH⟩

theorem resizeStep_preserves_MaxInv (m : ℕ) (enc : ℕ → ℕ → ℚ → ℕ)
    (sq : ℚ → ℚ) (hsq : ∀ x : ℚ, 0 ≤ x → x ≤ 9/10 → sq x ≤ 1)
    (maxW maxH : ℕ) (s : LoopState) (h : MaxInv maxW maxH s) :
    MaxInv maxW maxH (resizeStep m enc sq s) := by
  obtain ⟨hW, hH, hblob⟩ := h
  dsimp only [resizeStep]
  by_cases h1 : (s.done = true ∨ 10 ≤ s.attempts)
  · rw [if_pos h1]
    exact ⟨hW, hH, hblob⟩
  · rw [if_neg h1]
    split_ifs with h2 h3
    · refine ⟨hW, hH, ?_⟩
      intro b hb
      injection hb with hb
      subst hb
      exact ⟨hW, hH⟩
    · refine ⟨hW, hH, ?_⟩
      intro b hb
      injection hb with hb
      subst hb
      exact ⟨hW, hH⟩
    · have hszpos : (0 : ℚ) < ((enc s.width s.height s.quality : ℕ) : ℚ) := by
        have hlt : m < enc s.width s.height s.quality := lt_of_not_le h2
        exact_mod_cast lt_of_le_of_lt (Nat.zero_le m) hlt
      have hr0 : (0 : ℚ) ≤ (m : ℚ) / ((enc s.width s.height s.quality : ℕ) : ℚ) :=
        div_nonneg (Nat.cast_nonneg _) (le_of_lt hszpos)
      have hr1 : (m : ℚ) / ((enc s.width s.height s.quality : ℕ) : ℚ) ≤ 1 := by
        rw [div_le_one hszpos]
        exact_mod_cast le_of_lt (lt_of_not_le h2)
      have hscale :
          max (7/10 : ℚ)
            (sq ((m : ℚ) / ((enc s.width s.height s.quality : ℕ) : ℚ) * (9/10))) ≤ 1 := by
        apply max_le (by norm_num)
        exact hsq _ (by nlinarith) (by nlinarith)
      refine ⟨le_trans (jsRoundNat_mul_le_self hscale) hW,
        le_trans (jsRoundNat_mul_le_self hscale) hH, ?_⟩
      intro b hb
      injection hb with hb
      subst hb
      exact ⟨hW, hH⟩

/-- Invariant for claim C6: every blob stored by the loop exceeds the byte
budget, provided the encoder always produces an oversized blob. -/
theorem resizeStep_preserves_overBudget (m : ℕ) (enc : ℕ → ℕ → ℚ → ℕ)
    (sq : ℚ → ℚ) (he : ∀ w h q, m < enc w h q) (s : LoopState)
    (h : ∀ b, s.blob = some b → m < b.size) :
    ∀ b, (resizeStep m enc sq s).blob = some b → m < b.size := by
  dsimp only [resizeStep]
  by_cases h1 : (s.done = true ∨ 10 ≤ s.attempts)
  · rw [if_pos h1]; exact h
  · rw [if_neg h1]
    split_ifs with h2 h3
    · exact absurd (he s.width s.height s.quality) (not_lt.mpr h2)
    all_goals
      intro b hb
      injection hb with hb
      subst hb
      exact he s.width s.height s.quality

/-! ## Helpers for the progressive halving render -/

theorem jsRoundNat_half_lt {cw : ℕ} (h : 2 ≤ cw) :
    jsRoundNat ((cw : ℚ) / 2) < cw := by
  have h0 : (0 : ℚ) ≤ (cw : ℚ) / 2 := by positivity
  have h1 := jsRoundNat_cast_le h0
  have hcw : (2 : ℚ) ≤ (cw : ℚ) := by exact_mod_cast h
  have h2 : ((jsRoundNat ((cw : ℚ) / 2) : ℕ) : ℚ) < (cw : ℚ) := by linarith
  exact_mod_cast h2

theorem halveChain_isSpec (tw : ℕ) (htw : 1 ≤ tw) :
    ∀ (fuel cw ch : ℕ), cw ≤ fuel →
      isSpecHalvingChain tw cw ch (halveChain fuel cw ch tw) = true := by
  intro fuel
  induction fuel with
  | zero =>
    intro cw ch hcw
    have : cw = 0 := Nat.le_zero.mp hcw
    subst this
    simp [halveChain, isSpecHalvingChain]
  | succ fuel ih =>
    intro cw ch hcw
    rw [halveChain]
    by_cases hlt : 2 * tw < cw
    · rw [if_pos hlt]
      have hcw2 : 2 ≤ cw := by omega
      have hlt2 : jsRoundNat ((cw : ℚ) / 2) < cw := jsRoundNat_half_lt hcw2
      rw [isSpecHalvingChain]
      simp only [Bool.and_eq_true, decide_eq_true_eq]
      exact ⟨⟨⟨hlt, trivial⟩, trivial⟩, ih _ _ (by omega)⟩
    · rw [if_neg hlt]
      rw [isSpecHalvingChain]
      simp only [decide_eq_true_eq]
      omega

/-! ## Blob-presence across the iterated loop -/

theorem resizeIter_blob_isSome (m : ℕ) (enc : ℕ → ℕ → ℚ → ℕ) (sq : ℚ → ℚ)
    (s : LoopState) (hd : s.done = false) (ha : s.attempts < 10)
    (k : ℕ) (hk : 1 ≤ k) :
    (((resizeStep m enc sq)^[k]) s).blob.isSome := by
  obtain ⟨j, rfl⟩ : ∃ j, k = j + 1 := ⟨k - 1, by omega⟩
  rw [Function.iterate_succ_apply]
  exact iterate_preserves _ (fun t => t.blob.isSome = true)
    (fun t ht => resizeStep_blob_isSome m enc sq t ht) j _
    (resizeStep_sets_blob m enc sq s hd ha)

/-! ## Loop-as-iterate bridge and concrete evaluation helpers -/

theorem resizeLoop_eq_iterate (m : ℕ) (enc : ℕ → ℕ → ℚ → ℕ) (sq : ℚ → ℚ) :
    ∀ (k : ℕ) (s : LoopState),
      resizeLoop m enc sq k s = ((resizeStep m enc sq)^[k]) s := by
  intro k
  induction k with
  | zero => intro s; rfl
  | succ k ih =>
    intro s
    rw [Function.iterate_succ_apply]
    exact ih (resizeStep m enc sq s)

theorem forceLoop_eq_iterate (m : ℕ) (enc : ℕ → ℕ → ℚ → Option ℕ)
    (sq : ℚ → ℚ) :
    ∀ (k : ℕ) (s : MobileLoopState),
      forceLoop m enc sq k s = ((forceStep m enc sq)^[k]) s := by
  intro k
  induction k with
  | zero => intro s; rfl
  | succ k ih =>
    intro s
    rw [Function.iterate_succ_apply]
    exact ih (forceStep m enc sq s)

/-- Evaluate `jsRoundNat` at a concrete rational by squeezing. -/
theorem jsRoundNat_eq (x : ℚ) (n : ℕ) (h1 : (n : ℚ) ≤ x + 1/2)
    (h2 : x + 1/2 < (n : ℚ) + 1) : jsRoundNat x = n := by
  unfold jsRoundNat
  have hfl : Int.floor (x + 1/2) = (n : ℤ) := by
    rw [Int.floor_eq_iff]
    constructor
    · exact_mod_cast h1
    · push_cast
      exact h2
  rw [hfl]
  exact Int.toNat_natCast n

/-! ## Claim C1 — identity fast path -/

/-- C1: for every input file whose byte size is at most `maxSizeBytes`,
`resizeImage` returns the source file unchanged in 0 attempts without
consulting the decode or encode oracles, and `prepareImageForUpload` returns
the same blob with `wasResized = false`. -/
theorem c1_fast_path (file : JsFile) (cfg : Config) (decoded : Option ImgDims)
    (enc : ℕ → ℕ → ℚ → ℕ) (sq : ℚ → ℚ) (h : file.size ≤ cfg.maxSizeBytes) :
    resizeImage file cfg decoded enc sq = .ok ⟨.file file, 0⟩ ∧
    prepareImageForUpload file cfg decoded enc sq =
      .ok ⟨.file file, file.size, file.size, false⟩ := by
  unfold resizeImage prepareImageForUpload
  rw [if_pos h, if_pos h]
  exact ⟨rfl, rfl⟩

/-- Witness for C1 at a concrete input: a 100-byte file under the default
8 MB budget. -/
theorem c1_fast_path_witness :
    resizeImage ⟨100⟩ {} none (fun _ _ _ => 0) (fun _ => 0) =
      .ok ⟨.file ⟨100⟩, 0⟩ ∧
    prepareImageForUpload ⟨100⟩ {} none (fun _ _ _ => 0) (fun _ => 0) =
      .ok ⟨.file ⟨100⟩, 100, 100, false⟩ :=
  c1_fast_path ⟨100⟩ {} none (fun _ _ _ => 0) (fun _ => 0) (by decide)

/-! ## Elimination helpers for the two routines -/

theorem resizeImage_ok_elim {file : JsFile} {cfg : Config} {img : ImgDims}
    {enc : ℕ → ℕ → ℚ → ℕ} {sq : ℚ → ℚ} {out : ResizeOutcome}
    (hfast : ¬ file.size ≤ cfg.maxSizeBytes)
    (h : resizeImage file cfg (some img) enc sq = .ok out) :
    out = ⟨match (resizeLoop cfg.maxSizeBytes enc sq 10 (resizeInit img cfg)).blob with
           | some b => .encoded b
           | none => .null,
           (resizeLoop cfg.maxSizeBytes enc sq 10 (resizeInit img cfg)).attempts⟩ := by
  unfold resizeImage at h
  rw [if_neg hfast] at h
  dsimp only at h
  injection h with h
  exact h.symm

theorem forceConvertToJpeg_ok_elim {file : JsFile} {cfg : Config}
    {isIOS : Bool} {img : ImgDims} {enc : ℕ → ℕ → ℚ → Option ℕ}
    {sq : ℚ → ℚ} {out : MobileOutcome}
    (h : forceConvertToJpeg file cfg isIOS true (some img) enc sq = .ok out) :
    ∃ b, (forceLoop cfg.maxSizeBytes enc sq 15 (mobileInit img cfg isIOS sq)).blob = some b ∧
      out = ⟨b, (forceLoop cfg.maxSizeBytes enc sq 15 (mobileInit img cfg isIOS sq)).attempts⟩ := by
  unfold forceConvertToJpeg at h
  rw [if_neg (by simp)] at h
  dsimp only at h
  rcases hfail : (forceLoop cfg.maxSizeBytes enc sq 15 (mobileInit img cfg isIOS sq)).failed with _ | _
  · rw [hfail] at h
    simp only [Bool.false_eq_true, if_false] at h
    rcases hblob : (forceLoop cfg.maxSizeBytes enc sq 15 (mobileInit img cfg isIOS sq)).blob with _ | b
    · rw [hblob] at h
      exact Except.noConfusion h
    · rw [hblob] at h
      dsimp only at h
      injection h with h
      exact ⟨b, rfl, h.symm⟩
  · rw [hfail] at h
    simp only [if_true] at h
    exact Except.noConfusion h

/-! ## Claim C3 — attempt bound and the `maxAttempts` config field -/

/-- C3 counterexample: `maxAttempts` is NOT read from the caller's config.
With `maxAttempts := some 1` supplied by the caller and an encoder that always
overshoots the 100-byte budget, the loop still runs its hard-coded 10
iterations: five quality reductions 0.92 → 0.5, then dimension reductions
4096 → 2867 → 2007 → 1405 → 984, the tenth render at 984×984. -/
theorem c3_counterexample :
    Config.maxAttempts
        { maxSizeBytes := 100, maxAttempts := some 1 } = some 1 ∧
    resizeImage ⟨200⟩ { maxSizeBytes := 100, maxAttempts := some 1 }
        (some ⟨4096, 4096⟩) (fun _ _ _ => 101) (fun _ => 0) =
      .ok ⟨.encoded ⟨101, 984, 984⟩, 10⟩ ∧
    ¬ (10 : ℕ) ≤ 1 := by
  refine ⟨rfl, ?_, by omega⟩
  have hf1 : jsRoundNat ((14336 : ℚ)/5) = 2867 :=
    jsRoundNat_eq _ _ (by norm_num) (by norm_num)
  have hf2 : jsRoundNat ((20069 : ℚ)/10) = 2007 :=
    jsRoundNat_eq _ _ (by norm_num) (by norm_num)
  have hf3 : jsRoundNat ((14049 : ℚ)/10) = 1405 :=
    jsRoundNat_eq _ _ (by norm_num) (by norm_num)
  have hf4 : jsRoundNat ((1967 : ℚ)/2) = 984 :=
    jsRoundNat_eq _ _ (by norm_num) (by norm_num)
  have hf5 : jsRoundNat ((3444 : ℚ)/5) = 689 :=
    jsRoundNat_eq _ _ (by norm_num) (by norm_num)
  norm_num [resizeImage, resizeLoop, resizeInit, resizeStep,
    calculateDimensions, max_def, hf1, hf2, hf3, hf4, hf5]

/-- C3 as amended: the loop runs at most 10 iterations in the general variant
and at most 15 in the mobile variant — but these bounds are the hard-coded
local constants of each routine, not a caller-supplied `maxAttempts` field
(which is ignored; see the counterexample). -/
theorem c3_attempt_bound :
    (∀ (file : JsFile) (cfg : Config) (decoded : Option ImgDims)
        (enc : ℕ → ℕ → ℚ → ℕ) (sq : ℚ → ℚ) (out : ResizeOutcome),
      resizeImage file cfg decoded enc sq = .ok out → out.attempts ≤ 10) ∧
    (∀ (file : JsFile) (cfg : Config) (isIOS : Bool)
        (img : ImgDims) (enc : ℕ → ℕ → ℚ → Option ℕ)
        (sq : ℚ → ℚ) (out : MobileOutcome),
      forceConvertToJpeg file cfg isIOS true (some img) enc sq = .ok out →
        out.attempts ≤ 15) := by
  constructor
  · intro file cfg decoded enc sq out hrun
    by_cases hfast : file.size ≤ cfg.maxSizeBytes
    · unfold resizeImage at hrun
      rw [if_pos hfast] at hrun
      injection hrun with h
      rw [← h]
      exact Nat.zero_le _
    · cases decoded with
      | none =>
        unfold resizeImage at hrun
        rw [if_neg hfast] at hrun
        exact Except.noConfusion hrun
      | some img =>
        rw [resizeImage_ok_elim hfast hrun]
        show (resizeLoop cfg.maxSizeBytes enc sq 10 (resizeInit img cfg)).attempts ≤ 10
        rw [resizeLoop_eq_iterate]
        exact iterate_preserves _ (fun t => t.attempts ≤ 10)
          (fun t ht => resizeStep_attempts_le _ _ _ t ht) 10 (resizeInit img cfg)
          (by simp [resizeInit])
  · intro file cfg isIOS img enc sq out hrun
    obtain ⟨b, hblob, hout⟩ := forceConvertToJpeg_ok_elim hrun
    rw [hout]
    show (forceLoop cfg.maxSizeBytes enc sq 15 (mobileInit img cfg isIOS sq)).attempts ≤ 15
    rw [forceLoop_eq_iterate]
    exact iterate_preserves _ (fun t => t.attempts ≤ 15)
      (fun t ht => forceStep_attempts_le _ _ _ t ht) 15 (mobileInit img cfg isIOS sq)
      (by simp [mobileInit])

/-- Witness for C3's amended bound, applying both halves at concrete
successful runs (a fast-path run and a one-attempt mobile run). -/
theorem c3_attempt_bound_witness :
    ResizeOutcome.attempts ⟨.file ⟨100⟩, 0⟩ ≤ 10 ∧
    MobileOutcome.attempts ⟨⟨40, 1000, 1000⟩, 1⟩ ≤ 15 := by
  constructor
  · refine c3_attempt_bound.1 ⟨100⟩ {} none (fun _ _ _ => 0) (fun _ => 0) _ ?_
    unfold resizeImage
    rw [if_pos (by norm_num)]
  · refine c3_attempt_bound.2 ⟨50⟩ { maxSizeBytes := 100 } false ⟨1000, 1000⟩
      (fun _ _ _ => some 40) (fun _ => 0) _ ?_
    norm_num [forceConvertToJpeg, forceLoop, mobileInit, initialMobileDims,
      getIOSSafeCanvasLimits, calculateDimensions, forceStep, max_def]

/-! ## Claim C2 — the quality/dimension reduction formulas -/

/-- C2: on an attempt whose encoded size `sz` exceeds the budget, with
`sizeRatio = maxSizeBytes / sz`: while quality is above the floor the next
quality is exactly the spec's formula `max(floor, q - max(0.1, (1-r)*0.3))`
(floor 0.5 general, 0.35 mobile) and the dimensions are untouched; otherwise
the next dimensions are exactly the spec's formula
`round(d * max(dimFloor, sqrt(r * safety)))` (0.7/0.9 general, 0.6/0.8
mobile) and the quality is untouched. -/
theorem c2_reduction_formulas :
    (∀ (m : ℕ) (enc : ℕ → ℕ → ℚ → ℕ) (sq : ℚ → ℚ) (s : LoopState) (sz : ℕ),
      s.done = false → s.attempts < 10 →
      enc s.width s.height s.quality = sz → m < sz →
      ((1/2 < s.quality →
          (resizeStep m enc sq s).quality =
            specNextQuality (1/2) s.quality ((m : ℚ) / (sz : ℚ)) ∧
          (resizeStep m enc sq s).width = s.width ∧
          (resizeStep m enc sq s).height = s.height) ∧
       (¬ 1/2 < s.quality →
          (resizeStep m enc sq s).width =
            specNextDim (7/10) (9/10) sq s.width ((m : ℚ) / (sz : ℚ)) ∧
          (resizeStep m enc sq s).height =
            specNextDim (7/10) (9/10) sq s.height ((m : ℚ) / (sz : ℚ)) ∧
          (resizeStep m enc sq s).quality = s.quality))) ∧
    (∀ (m : ℕ) (enc : ℕ → ℕ → ℚ → Option ℕ) (sq : ℚ → ℚ)
        (s : MobileLoopState) (sz : ℕ),
      s.failed = false → s.done = false → s.attempts < 15 →
      enc s.width s.height s.quality = some sz → m < sz →
      ((35/100 < s.quality →
          (forceStep m enc sq s).quality =
            specNextQuality (35/100) s.quality ((m : ℚ) / (sz : ℚ)) ∧
          (forceStep m enc sq s).width = s.width ∧
          (forceStep m enc sq s).height = s.height) ∧
       (¬ 35/100 < s.quality →
          (forceStep m enc sq s).width =
            specNextDim (6/10) (8/10) sq s.width ((m : ℚ) / (sz : ℚ)) ∧
          (forceStep m enc sq s).height =
            specNextDim (6/10) (8/10) sq s.height ((m : ℚ) / (sz : ℚ)) ∧
          (forceStep m enc sq s).quality = s.quality))) := by
  constructor
  · intro m enc sq s sz hd ha he hsz
    have hguard : ¬(s.done = true ∨ 10 ≤ s.attempts) := by
      simp [hd]
      omega
    constructor
    · intro hq
      dsimp only [resizeStep]
      rw [if_neg hguard, he, if_neg (by omega : ¬ sz ≤ m), if_pos hq]
      exact ⟨rfl, rfl, rfl⟩
    · intro hq
      dsimp only [resizeStep]
      rw [if_neg hguard, he, if_neg (by omega : ¬ sz ≤ m), if_neg hq]
      exact ⟨rfl, rfl, rfl⟩
  · intro m enc sq s sz hf hd ha he hsz
    have hguard : ¬(s.failed = true ∨ s.done = true ∨ 15 ≤ s.attempts) := by
      simp [hd, hf]
      omega
    constructor
    · intro hq
      dsimp only [forceStep]
      rw [if_neg hguard, he]
      dsimp only
      rw [if_neg (by omega : ¬ sz ≤ m), if_pos hq]
      exact ⟨rfl, rfl, rfl⟩
    · intro hq
      dsimp only [forceStep]
      rw [if_neg hguard, he]
      dsimp only
      rw [if_neg (by omega : ¬ sz ≤ m), if_neg hq]
      exact ⟨rfl, rfl, rfl⟩

/-- Witness for C2 at concrete states: a quality-branch step of the general
variant (quality 0.92 > 0.5) and a dimension-branch step of the mobile
variant (quality 0.3 ≤ 0.35), both against an encoder answering 101 bytes
over a 100-byte budget. -/
theorem c2_reduction_formulas_witness :
    ((resizeStep 100 (fun _ _ _ => 101) (fun _ => 0)
        ⟨1000, 800, 92/100, none, 0, false⟩).quality =
      specNextQuality (1/2) (92/100) ((100 : ℚ) / (101 : ℚ)) ∧
     (resizeStep 100 (fun _ _ _ => 101) (fun _ => 0)
        ⟨1000, 800, 92/100, none, 0, false⟩).width = 1000 ∧
     (resizeStep 100 (fun _ _ _ => 101) (fun _ => 0)
        ⟨1000, 800, 92/100, none, 0, false⟩).height = 800) ∧
    ((forceStep 100 (fun _ _ _ => some 101) (fun _ => 0)
        ⟨1000, 800, 3/10, none, 0, false, false⟩).width =
      specNextDim (6/10) (8/10) (fun _ => 0) 1000 ((100 : ℚ) / (101 : ℚ)) ∧
     (forceStep 100 (fun _ _ _ => some 101) (fun _ => 0)
        ⟨1000, 800, 3/10, none, 0, false, false⟩).height =
      specNextDim (6/10) (8/10) (fun _ => 0) 800 ((100 : ℚ) / (101 : ℚ)) ∧
     (forceStep 100 (fun _ _ _ => some 101) (fun _ => 0)
        ⟨1000, 800, 3/10, none, 0, false, false⟩).quality = 3/10) :=
  ⟨(c2_reduction_formulas.1 100 (fun _ _ _ => 101) (fun _ => 0)
      ⟨1000, 800, 92/100, none, 0, false⟩ 101 rfl (by norm_num) rfl
      (by omega)).1 (by norm_num),
   (c2_reduction_formulas.2 100 (fun _ _ _ => some 101) (fun _ => 0)
      ⟨1000, 800, 3/10, none, 0, false, false⟩ 101 rfl rfl (by norm_num) rfl
      (by omega)).2 (by norm_num)⟩

/-! ## Claim C4 — dimension bounds of the returned blob -/

/-- C4 counterexample: a source that requires compression (200 bytes over a
100-byte budget) but decodes to only 500×400 pixels is rendered, and its blob
returned, at 500×400 — below the 800×600 minimums the claim asserts are never
violated. (The run: five quality reductions, then the dimension update
350×280 trips the minimum guard at attempt 6, returning the blob rendered at
500×400.) -/
theorem c4_counterexample :
    (100 : ℕ) < 200 ∧
    resizeImage ⟨200⟩ { maxSizeBytes := 100 } (some ⟨500, 400⟩)
        (fun _ _ _ => 101) (fun _ => 0) =
      .ok ⟨.encoded ⟨101, 500, 400⟩, 6⟩ ∧
    (500 : ℕ) < 800 := by
  refine ⟨by omega, ?_, by omega⟩
  have hf1 : jsRoundNat ((350 : ℚ)) = 350 :=
    jsRoundNat_eq _ _ (by norm_num) (by norm_num)
  have hf2 : jsRoundNat ((280 : ℚ)) = 280 :=
    jsRoundNat_eq _ _ (by norm_num) (by norm_num)
  norm_num [resizeImage, resizeLoop, resizeInit, resizeStep,
    calculateDimensions, max_def, hf1, hf2]

/-- C4 as amended: for every source requiring compression, the returned
blob's rendered dimensions never exceed the configured maxWidth/maxHeight —
unconditionally; and provided the initial computed dimensions (the source
clamped into the configured maxima) already meet the 800×600 minimums, they
also never fall below 800×600. (Without that proviso the lower bound fails:
see the counterexample, where a small source is rendered below the
minimums.) -/
theorem c4_dimension_bounds (file : JsFile) (cfg : Config) (img : ImgDims)
    (enc : ℕ → ℕ → ℚ → ℕ) (sq : ℚ → ℚ)
    (hsq : ∀ x : ℚ, 0 ≤ x → x ≤ 9/10 → sq x ≤ 1)
    (hcomp : cfg.maxSizeBytes < file.size)
    (out : ResizeOutcome) (b : EncBlob)
    (hrun : resizeImage file cfg (some img) enc sq = .ok out)
    (hb : out.value = .encoded b) :
    (b.renderedWidth ≤ cfg.maxWidth ∧ b.renderedHeight ≤ cfg.maxHeight) ∧
    (800 ≤ (resizeInit img cfg).width → 600 ≤ (resizeInit img cfg).height →
      800 ≤ b.renderedWidth ∧ 600 ≤ b.renderedHeight) := by
  have hfast : ¬ file.size ≤ cfg.maxSizeBytes := by omega
  have hout := resizeImage_ok_elim hfast hrun
  rw [hout] at hb
  cases hfin : (resizeLoop cfg.maxSizeBytes enc sq 10 (resizeInit img cfg)).blob with
  | none =>
    rw [hfin] at hb
    exact absurd hb (by simp)
  | some b2 =>
    rw [hfin] at hb
    dsimp only at hb
    injection hb with hb
    rw [← hb]
    have hfin2 := hfin
    rw [resizeLoop_eq_iterate] at hfin2
    constructor
    · have hmax : MaxInv cfg.maxWidth cfg.maxHeight
          (((resizeStep cfg.maxSizeBytes enc sq)^[10]) (resizeInit img cfg)) := by
        apply iterate_preserves _ _
          (fun t ht => resizeStep_preserves_MaxInv _ _ _ hsq _ _ t ht) 10
        refine ⟨?_, ?_, ?_⟩
        · show (calculateDimensions img.width img.height cfg.maxWidth cfg.maxHeight).1 ≤ _
          exact (calculateDimensions_le_max _ _ _ _).1
        · show (calculateDimensions img.width img.height cfg.maxWidth cfg.maxHeight).2 ≤ _
          exact (calculateDimensions_le_max _ _ _ _).2
        · intro b3 hb3
          exact absurd hb3 (by simp [resizeInit])
      exact hmax.2.2 b2 hfin2
    · intro h800 h600
      have hinv : DimInv cfg.maxWidth cfg.maxHeight
          (((resizeStep cfg.maxSizeBytes enc sq)^[10]) (resizeInit img cfg)) := by
        apply iterate_preserves _ _
          (fun t ht => resizeStep_preserves_DimInv _ _ _ hsq _ _ t ht) 10
        refine ⟨fun _ => ⟨h800, h600⟩, ?_, ?_, ?_⟩
        · show (calculateDimensions img.width img.height cfg.maxWidth cfg.maxHeight).1 ≤ _
          exact (calculateDimensions_le_max _ _ _ _).1
        · show (calculateDimensions img.width img.height cfg.maxWidth cfg.maxHeight).2 ≤ _
          exact (calculateDimensions_le_max _ _ _ _).2
        · intro b3 hb3
          exact absurd hb3 (by simp [resizeInit])
      have hall := hinv.2.2.2 b2 hfin2
      exact ⟨hall.1, hall.2.2.1⟩

/-- Witness for C4's amended bound: a 1000×800 source over budget whose first
attempt succeeds; its blob is rendered at 1000×800, within `4096×4096`
unconditionally, and — since the initial dimensions 1000×800 meet the
minimums — within `[800, 4096] × [600, 4096]`. -/
theorem c4_dimension_bounds_witness :
    ((1000 : ℕ) ≤ 4096 ∧ (800 : ℕ) ≤ 4096) ∧
    (800 ≤ (1000 : ℕ) ∧ 600 ≤ (800 : ℕ)) := by
  have h := c4_dimension_bounds ⟨200⟩ { maxSizeBytes := 100 } ⟨1000, 800⟩
    (fun _ _ _ => 50) (fun _ => 0) (fun x hx1 hx2 => by norm_num)
    (by norm_num)
    ⟨.encoded ⟨50, 1000, 800⟩, 1⟩ ⟨50, 1000, 800⟩
    (by norm_num [resizeImage, resizeLoop, resizeInit, resizeStep,
      calculateDimensions])
    rfl
  exact ⟨h.1, h.2 (by norm_num [resizeInit, calculateDimensions])
    (by norm_num [resizeInit, calculateDimensions])⟩

/-! ## Claim C5 — monotonicity across attempts -/

/-- C5: within one invocation, across successive loop iterations the quality
is monotonically non-increasing and sticks at the floor (0.5 general, 0.35
mobile) once it reaches it, and the width and height are monotonically
non-increasing — in both variants (assuming only that the abstracted
`Math.sqrt` returns at most 1 on `[0, 0.9]`, as the real square root does). -/
theorem c5_monotonicity :
    (∀ (m : ℕ) (enc : ℕ → ℕ → ℚ → ℕ) (sq : ℚ → ℚ),
      (∀ x : ℚ, 0 ≤ x → x ≤ 9/10 → sq x ≤ 1) →
      ∀ (s0 : LoopState) (k j : ℕ), k ≤ j →
        (resizeLoop m enc sq j s0).quality ≤ (resizeLoop m enc sq k s0).quality ∧
        (resizeLoop m enc sq j s0).width ≤ (resizeLoop m enc sq k s0).width ∧
        (resizeLoop m enc sq j s0).height ≤ (resizeLoop m enc sq k s0).height ∧
        ((resizeLoop m enc sq k s0).quality = 1/2 →
          (resizeLoop m enc sq j s0).quality = 1/2)) ∧
    (∀ (m : ℕ) (enc : ℕ → ℕ → ℚ → Option ℕ) (sq : ℚ → ℚ),
      (∀ x : ℚ, 0 ≤ x → x ≤ 9/10 → sq x ≤ 1) →
      ∀ (s0 : MobileLoopState) (k j : ℕ), k ≤ j →
        (forceLoop m enc sq j s0).quality ≤ (forceLoop m enc sq k s0).quality ∧
        (forceLoop m enc sq j s0).width ≤ (forceLoop m enc sq k s0).width ∧
        (forceLoop m enc sq j s0).height ≤ (forceLoop m enc sq k s0).height ∧
        ((forceLoop m enc sq k s0).quality = 35/100 →
          (forceLoop m enc sq j s0).quality = 35/100)) := by
  constructor
  · intro m enc sq hsq s0 k j hkj
    simp only [resizeLoop_eq_iterate]
    induction j, hkj using Nat.le_induction with
    | base => exact ⟨le_refl _, le_refl _, le_refl _, fun h => h⟩
    | succ j hkj ih =>
      obtain ⟨ihq, ihw, ihh, ihf⟩ := ih
      rw [Function.iterate_succ_apply']
      have hq := resizeStep_quality_le m enc sq (((resizeStep m enc sq)^[j]) s0)
      have hd := resizeStep_dims_le m enc sq hsq (((resizeStep m enc sq)^[j]) s0)
      exact ⟨le_trans hq ihq, le_trans hd.1 ihw, le_trans hd.2 ihh,
        fun h => resizeStep_quality_floor m enc sq _ (ihf h)⟩
  · intro m enc sq hsq s0 k j hkj
    simp only [forceLoop_eq_iterate]
    induction j, hkj using Nat.le_induction with
    | base => exact ⟨le_refl _, le_refl _, le_refl _, fun h => h⟩
    | succ j hkj ih =>
      obtain ⟨ihq, ihw, ihh, ihf⟩ := ih
      rw [Function.iterate_succ_apply']
      have hq := forceStep_quality_le m enc sq (((forceStep m enc sq)^[j]) s0)
      have hd := forceStep_dims_le m enc sq hsq (((forceStep m enc sq)^[j]) s0)
      exact ⟨le_trans hq ihq, le_trans hd.1 ihw, le_trans hd.2 ihh,
        fun h => forceStep_quality_floor m enc sq _ (ihf h)⟩

/-- Witness for C5 at a concrete invocation: one step of each variant against
an always-oversized encoder, comparing iterations 0 and 1. -/
theorem c5_monotonicity_witness :
    ((resizeLoop 100 (fun _ _ _ => 101) (fun _ => 1) 1
        ⟨1000, 800, 92/100, none, 0, false⟩).quality ≤
      (resizeLoop 100 (fun _ _ _ => 101) (fun _ => 1) 0
        ⟨1000, 800, 92/100, none, 0, false⟩).quality ∧
     (resizeLoop 100 (fun _ _ _ => 101) (fun _ => 1) 1
        ⟨1000, 800, 92/100, none, 0, false⟩).width ≤
      (resizeLoop 100 (fun _ _ _ => 101) (fun _ => 1) 0
        ⟨1000, 800, 92/100, none, 0, false⟩).width ∧
     (resizeLoop 100 (fun _ _ _ => 101) (fun _ => 1) 1
        ⟨1000, 800, 92/100, none, 0, false⟩).height ≤
      (resizeLoop 100 (fun _ _ _ => 101) (fun _ => 1) 0
        ⟨1000, 800, 92/100, none, 0, false⟩).height ∧
     ((resizeLoop 100 (fun _ _ _ => 101) (fun _ => 1) 0
        ⟨1000, 800, 92/100, none, 0, false⟩).quality = 1/2 →
      (resizeLoop 100 (fun _ _ _ => 101) (fun _ => 1) 1
        ⟨1000, 800, 92/100, none, 0, false⟩).quality = 1/2)) ∧
    ((forceLoop 100 (fun _ _ _ => some 101) (fun _ => 1) 1
        ⟨1000, 800, 35/100, none, 0, false, false⟩).quality ≤
      (forceLoop 100 (fun _ _ _ => some 101) (fun _ => 1) 0
        ⟨1000, 800, 35/100, none, 0, false, false⟩).quality ∧
     (forceLoop 100 (fun _ _ _ => some 101) (fun _ => 1) 1
        ⟨1000, 800, 35/100, none, 0, false, false⟩).width ≤
      (forceLoop 100 (fun _ _ _ => some 101) (fun _ => 1) 0
        ⟨1000, 800, 35/100, none, 0, false, false⟩).width ∧
     (forceLoop 100 (fun _ _ _ => some 101) (fun _ => 1) 1
        ⟨1000, 800, 35/100, none, 0, false, false⟩).height ≤
      (forceLoop 100 (fun _ _ _ => some 101) (fun _ => 1) 0
        ⟨1000, 800, 35/100, none, 0, false, false⟩).height ∧
     ((forceLoop 100 (fun _ _ _ => some 101) (fun _ => 1) 0
        ⟨1000, 800, 35/100, none, 0, false, false⟩).quality = 35/100 →
      (forceLoop 100 (fun _ _ _ => some 101) (fun _ => 1) 1
        ⟨1000, 800, 35/100, none, 0, false, false⟩).quality = 35/100)) :=
  ⟨c5_monotonicity.1 100 (fun _ _ _ => 101) (fun _ => 1)
      (fun x hx1 hx2 => le_refl 1) ⟨1000, 800, 92/100, none, 0, false⟩ 0 1
      (by omega),
   c5_monotonicity.2 100 (fun _ _ _ => some 101) (fun _ => 1)
      (fun x hx1 hx2 => le_refl 1) ⟨1000, 800, 35/100, none, 0, false, false⟩
      0 1 (by omega)⟩

/-! ## Claim C6 — best-effort result and the missing budget flag -/

/-- C6 counterexample: the returned value carries NO flag indicating the
budget was not met. A budget-unmet run (budget 80, encoder always answering
200 bytes: three quality reductions of 0.18 down to the 0.5 floor, then the
dimension update 700×700 trips the minimum guard at attempt 4) returns a
value identical to a budget-met run (budget 250, same encoder, success on
attempt 1): `blob` (200 bytes, rendered at 1000×1000), `originalSize`,
`finalSize` and `wasResized` all coincide, so no field of the result
distinguishes meeting the budget from missing it. The square-root oracle is
consulted exactly once, at `sizeRatio * 0.9 = (80/200) * 0.9 = 9/25`, and the
value it returns, `3/5`, is the EXACT square root of that argument (the last
conjunct) — so this run is the real `Math.sqrt` run, and the resulting scale
is pinned at the 0.7 floor since `3/5 < 7/10`. -/
theorem c6_counterexample :
    prepareImageForUpload ⟨300⟩ { maxSizeBytes := 80 } (some ⟨1000, 1000⟩)
        (fun _ _ _ => 200) (fun _ => 3/5) =
      prepareImageForUpload ⟨300⟩ { maxSizeBytes := 250 } (some ⟨1000, 1000⟩)
        (fun _ _ _ => 200) (fun _ => 3/5) ∧
    (80 : ℕ) < 200 ∧ (200 : ℕ) ≤ 250 ∧
    ((3 : ℚ)/5) * ((3 : ℚ)/5) = (80 : ℚ)/200 * (9/10) := by
  refine ⟨?_, by omega, by omega, by norm_num⟩
  have hf : jsRoundNat ((700 : ℚ)) = 700 :=
    jsRoundNat_eq _ _ (by norm_num) (by norm_num)
  norm_num [prepareImageForUpload, resizeImage, resizeLoop, resizeInit,
    resizeStep, calculateDimensions, max_def, hf]

/-- C6 as amended: when the source is over budget and every encode attempt
stays over budget (so the loop exhausts its attempts or trips the
minimum-dimension guard), `resizeImage` still returns `ok` — never a thrown
error — carrying the loop's last blob, whose size exceeds the budget, and
`prepareImageForUpload` wraps it with `wasResized = true`; no dedicated
budget-unmet flag is returned (see the counterexample), the caller can only
compare `finalSize` against the budget. -/
theorem c6_best_effort (file : JsFile) (cfg : Config) (img : ImgDims)
    (enc : ℕ → ℕ → ℚ → ℕ) (sq : ℚ → ℚ)
    (hcomp : cfg.maxSizeBytes < file.size)
    (he : ∀ w h q, cfg.maxSizeBytes < enc w h q) :
    ∃ b : EncBlob,
      resizeImage file cfg (some img) enc sq =
        .ok ⟨.encoded b,
          (resizeLoop cfg.maxSizeBytes enc sq 10 (resizeInit img cfg)).attempts⟩ ∧
      cfg.maxSizeBytes < b.size ∧
      prepareImageForUpload file cfg (some img) enc sq =
        .ok ⟨.encoded b, file.size, b.size, true⟩ := by
  have hfast : ¬ file.size ≤ cfg.maxSizeBytes := by omega
  have hsome : (resizeLoop cfg.maxSizeBytes enc sq 10 (resizeInit img cfg)).blob.isSome := by
    rw [resizeLoop_eq_iterate]
    exact resizeIter_blob_isSome _ _ _ _ (by simp [resizeInit])
      (by simp [resizeInit]) 10 (by omega)
  obtain ⟨b, hb⟩ := Option.isSome_iff_exists.mp hsome
  have hb2 := hb
  rw [resizeLoop_eq_iterate] at hb2
  have hover : cfg.maxSizeBytes < b.size := by
    have hpres := iterate_preserves (resizeStep cfg.maxSizeBytes enc sq)
      (fun t => ∀ b2, t.blob = some b2 → cfg.maxSizeBytes < b2.size)
      (fun t ht => resizeStep_preserves_overBudget cfg.maxSizeBytes enc sq he t ht)
      10 (resizeInit img cfg)
      (fun b2 hb3 => absurd hb3 (by simp [resizeInit]))
    exact hpres b hb2
  have hri : resizeImage file cfg (some img) enc sq =
      .ok ⟨.encoded b,
        (resizeLoop cfg.maxSizeBytes enc sq 10 (resizeInit img cfg)).attempts⟩ := by
    unfold resizeImage
    rw [if_neg hfast]
    dsimp only
    rw [hb]
  refine ⟨b, hri, hover, ?_⟩
  unfold prepareImageForUpload
  rw [if_neg hfast, hri]
  dsimp only [BlobVal.size]
  simp

/-- Witness for C6's amended statement: a 1000×1000 source over a 100-byte
budget with an encoder always answering 101 bytes. -/
theorem c6_best_effort_witness :
    ∃ b : EncBlob,
      resizeImage ⟨200⟩ { maxSizeBytes := 100 } (some ⟨1000, 1000⟩)
          (fun _ _ _ => 101) (fun _ => 0) =
        .ok ⟨.encoded b,
          (resizeLoop 100 (fun _ _ _ => 101) (fun _ => 0) 10
            (resizeInit ⟨1000, 1000⟩ { maxSizeBytes := 100 })).attempts⟩ ∧
      100 < b.size ∧
      prepareImageForUpload ⟨200⟩ { maxSizeBytes := 100 } (some ⟨1000, 1000⟩)
          (fun _ _ _ => 101) (fun _ => 0) =
        .ok ⟨.encoded b, 200, b.size, true⟩ :=
  c6_best_effort ⟨200⟩ { maxSizeBytes := 100 } ⟨1000, 1000⟩
    (fun _ _ _ => 101) (fun _ => 0) (by norm_num) (fun w h q => by norm_num)

/-! ## Claim C7 — progressive halving render -/

/-- C7 counterexample: the claim is not true of "every render". The
platform-aware variant calls `drawToCanvas` with
`useProgressiveResize = false` (part_002 line 454), so one of its renders
with scale-down ratio above 2 (here 4096/1000 > 2) is a single-step resize,
not a halving chain. -/
theorem c7_counterexample :
    drawToCanvas ⟨4096, 4096⟩ 1000 1000 false = .single 1000 1000 ∧
    2 * 1000 < 4096 := by
  constructor
  · unfold drawToCanvas
    rw [if_neg]
    intro h
    simp at h
  · omega

/-- C7 as amended: with progressive resizing enabled (the general variant's
renders), a scale-down ratio of at most 2 gives a single-step resize, and a
ratio above 2 renders the halving chain followed by one final resize to the
exact target, where the chain halves the current dimensions with rounding at
each step exactly while the current width exceeds twice the target width
(the spec-side predicate `isSpecHalvingChain`); with progressive resizing
disabled (the platform-aware variant's renders) every render is single-step. -/
theorem c7_progressive (img : ImgDims) (tw th : ℕ) (htw : 1 ≤ tw) :
    (img.width ≤ 2 * tw → drawToCanvas img tw th true = .single tw th) ∧
    (2 * tw < img.width →
      drawToCanvas img tw th true =
        .progressive (halveChain img.width img.width img.height tw) tw th ∧
      isSpecHalvingChain tw img.width img.height
        (halveChain img.width img.width img.height tw) = true) ∧
    drawToCanvas img tw th false = .single tw th := by
  refine ⟨?_, ?_, ?_⟩
  · intro hle
    unfold drawToCanvas
    rw [if_neg]
    intro h
    omega
  · intro hlt
    constructor
    · unfold drawToCanvas
      rw [if_pos ⟨rfl, hlt⟩]
    · exact halveChain_isSpec tw htw img.width img.width img.height (le_refl _)
  · unfold drawToCanvas
    rw [if_neg]
    intro h
    simp at h

/-- Witness for C7's amended statement at a concrete render: a 4096×4096
source drawn to 1000×800. -/
theorem c7_progressive_witness :
    ((4096 : ℕ) ≤ 2 * 1000 →
      drawToCanvas ⟨4096, 4096⟩ 1000 800 true = .single 1000 800) ∧
    (2 * 1000 < (4096 : ℕ) →
      drawToCanvas ⟨4096, 4096⟩ 1000 800 true =
        .progressive (halveChain 4096 4096 4096 1000) 1000 800 ∧
      isSpecHalvingChain 1000 4096 4096
        (halveChain 4096 4096 4096 1000) = true) ∧
    drawToCanvas ⟨4096, 4096⟩ 1000 800 false = .single 1000 800 :=
  c7_progressive ⟨4096, 4096⟩ 1000 800 (by omega)

/-! ## Claim C8 — encode-failure retries and fatal decode -/

/-- C8 counterexample: the routine does NOT give up after a single 70% retry.
With an encoder failing at widths ≥ 1400, the first attempt (2048×2048)
fails, the one 70% retry (1434×1434) ALSO fails — at which point the claim
says the routine gives up with a fatal error — yet the code simply retries
again at 70% (1004×1004), succeeds there and returns `ok`. -/
theorem c8_counterexample :
    forceConvertToJpeg ⟨999⟩ { maxSizeBytes := 100 } false true
        (some ⟨2048, 2048⟩)
        (fun w _ _ => if 1400 ≤ w then none else some 50) (fun _ => 0) =
      .ok ⟨⟨50, 1004, 1004⟩, 3⟩ ∧
    (fun w (_ : ℕ) (_ : ℚ) => if 1400 ≤ w then (none : Option ℕ) else some 50)
        2048 2048 (92/100) = none ∧
    (fun w (_ : ℕ) (_ : ℚ) => if 1400 ≤ w then (none : Option ℕ) else some 50)
        1434 1434 (92/100) = none := by
  refine ⟨?_, by norm_num, by norm_num⟩
  have hf1 : jsRoundNat ((7168 : ℚ)/5) = 1434 :=
    jsRoundNat_eq _ _ (by norm_num) (by norm_num)
  have hf2 : jsRoundNat ((5019 : ℚ)/5) = 1004 :=
    jsRoundNat_eq _ _ (by norm_num) (by norm_num)
  norm_num [forceConvertToJpeg, forceLoop, mobileInit, initialMobileDims,
    getIOSSafeCanvasLimits, calculateDimensions, forceStep, max_def, hf1, hf2]

/-- C8 as amended: a decode failure is fatal immediately for every encoder
(so it is never retried); an encode failure inside the loop shrinks both
dimensions to 70% (rounded), increments the attempt counter and continues —
becoming fatal only once the shrunken dimensions fall below 400×300, as the
concrete always-failing run shows (five failures 2048 → 1434 → 1004 → 703 →
492 → 344, then the fatal `canvasErrors`). -/
theorem c8_encode_retry :
    (∀ (file : JsFile) (cfg : Config) (isIOS : Bool)
        (enc : ℕ → ℕ → ℚ → Option ℕ) (sq : ℚ → ℚ),
      forceConvertToJpeg file cfg isIOS true none enc sq =
        .error .loadFailed) ∧
    (∀ (m : ℕ) (enc : ℕ → ℕ → ℚ → Option ℕ) (sq : ℚ → ℚ)
        (s : MobileLoopState),
      s.failed = false → s.done = false → s.attempts < 15 →
      enc s.width s.height s.quality = none →
      forceStep m enc sq s =
        { s with
            width := jsRoundNat ((s.width : ℚ) * (7/10)),
            height := jsRoundNat ((s.height : ℚ) * (7/10)),
            attempts := s.attempts + 1,
            failed := decide (jsRoundNat ((s.width : ℚ) * (7/10)) < 400 ∨
              jsRoundNat ((s.height : ℚ) * (7/10)) < 300) }) ∧
    forceConvertToJpeg ⟨999⟩ { maxSizeBytes := 100 } false true
        (some ⟨2048, 2048⟩) (fun _ _ _ => none) (fun _ => 0) =
      .error .canvasErrors := by
  refine ⟨?_, ?_, ?_⟩
  · intro file cfg isIOS enc sq
    unfold forceConvertToJpeg
    rw [if_neg (by simp)]
  · intro m enc sq s hf hd ha he
    have hguard : ¬(s.failed = true ∨ s.done = true ∨ 15 ≤ s.attempts) := by
      simp [hd, hf]
      omega
    dsimp only [forceStep]
    rw [if_neg hguard, he]
  · have hf1 : jsRoundNat ((7168 : ℚ)/5) = 1434 :=
      jsRoundNat_eq _ _ (by norm_num) (by norm_num)
    have hf2 : jsRoundNat ((5019 : ℚ)/5) = 1004 :=
      jsRoundNat_eq _ _ (by norm_num) (by norm_num)
    have hf3 : jsRoundNat ((3514 : ℚ)/5) = 703 :=
      jsRoundNat_eq _ _ (by norm_num) (by norm_num)
    have hf4 : jsRoundNat ((4921 : ℚ)/10) = 492 :=
      jsRoundNat_eq _ _ (by norm_num) (by norm_num)
    have hf5 : jsRoundNat ((1722 : ℚ)/5) = 344 :=
      jsRoundNat_eq _ _ (by norm_num) (by norm_num)
    norm_num [forceConvertToJpeg, forceLoop, mobileInit, initialMobileDims,
      getIOSSafeCanvasLimits, calculateDimensions, forceStep, max_def,
      hf1, hf2, hf3, hf4, hf5]

/-- Witness for C8's amended statement: one encode-failure step at
2048×2048 with attempts 0. -/
theorem c8_encode_retry_witness :
    forceStep 100 (fun _ _ _ => none) (fun _ => 0)
        ⟨2048, 2048, 92/100, none, 0, false, false⟩ =
      { width := jsRoundNat ((2048 : ℚ) * (7/10)),
        height := jsRoundNat ((2048 : ℚ) * (7/10)),
        quality := 92/100, blob := none, attempts := 1, done := false,
        failed := decide (jsRoundNat ((2048 : ℚ) * (7/10)) < 400 ∨
          jsRoundNat ((2048 : ℚ) * (7/10)) < 300) } :=
  c8_encode_retry.2.1 100 (fun _ _ _ => none) (fun _ => 0)
    ⟨2048, 2048, 92/100, none, 0, false, false⟩ rfl rfl (by norm_num) rfl

/-! ## Claim C9 — rounding and no upscaling -/

/-- C9: (i) a source already within the max bounds is returned unchanged by
`calculateDimensions` (the ratio is effectively clamped to 1: no upscaling);
(ii) the computed dimensions never exceed the source dimensions, for any
input; (iii) `jsRoundNat` — the rounding used by every dimension calculation
that executes — is round-to-nearest: it differs from the exact value by at
most 1/2; (iv) the one `Math.floor`-based dimension calculation in the code,
the total-pixel clamp of `forceConvertToJpeg`, never executes: the initial
mobile dimensions always equal the `calculateDimensions` result unmodified,
because the clamped dimensions can never exceed the canvas pixel limit. -/
theorem c9_rounding_no_upscale :
    (∀ w h mW mH : ℕ, w ≤ mW → h ≤ mH →
      calculateDimensions w h mW mH = (w, h)) ∧
    (∀ w h mW mH : ℕ, (calculateDimensions w h mW mH).1 ≤ w ∧
      (calculateDimensions w h mW mH).2 ≤ h) ∧
    (∀ x : ℚ, 0 ≤ x →
      x - 1/2 ≤ (jsRoundNat x : ℚ) ∧ (jsRoundNat x : ℚ) ≤ x + 1/2) ∧
    (∀ (img : ImgDims) (cfg : Config) (isIOS : Bool) (sq : ℚ → ℚ),
      initialMobileDims img cfg (getIOSSafeCanvasLimits isIOS) sq =
        calculateDimensions img.width img.height
          (min cfg.maxWidth (getIOSSafeCanvasLimits isIOS).maxWidth)
          (min cfg.maxHeight (getIOSSafeCanvasLimits isIOS).maxHeight)) := by
  refine ⟨?_, ?_, ?_, ?_⟩
  · intro w h mW mH hw hh
    unfold calculateDimensions
    rw [if_neg (by omega)]
  · intro w h mW mH
    exact calculateDimensions_le_self w h mW mH
  · intro x hx
    exact ⟨sub_half_le_jsRoundNat hx, jsRoundNat_cast_le hx⟩
  · intro img cfg isIOS sq
    have hw := (calculateDimensions_le_max img.width img.height
      (min cfg.maxWidth (getIOSSafeCanvasLimits isIOS).maxWidth)
      (min cfg.maxHeight (getIOSSafeCanvasLimits isIOS).maxHeight)).1
    have hh := (calculateDimensions_le_max img.width img.height
      (min cfg.maxWidth (getIOSSafeCanvasLimits isIOS).maxWidth)
      (min cfg.maxHeight (getIOSSafeCanvasLimits isIOS).maxHeight)).2
    have hw2 := le_trans hw
      (min_le_right cfg.maxWidth (getIOSSafeCanvasLimits isIOS).maxWidth)
    have hh2 := le_trans hh
      (min_le_right cfg.maxHeight (getIOSSafeCanvasLimits isIOS).maxHeight)
    have hpx : (getIOSSafeCanvasLimits isIOS).maxWidth *
        (getIOSSafeCanvasLimits isIOS).maxHeight ≤
        (getIOSSafeCanvasLimits isIOS).maxPixels := by
      cases isIOS <;> norm_num [getIOSSafeCanvasLimits]
    have hno : ¬ ((getIOSSafeCanvasLimits isIOS).maxPixels <
        (calculateDimensions img.width img.height
          (min cfg.maxWidth (getIOSSafeCanvasLimits isIOS).maxWidth)
          (min cfg.maxHeight (getIOSSafeCanvasLimits isIOS).maxHeight)).1 *
        (calculateDimensions img.width img.height
          (min cfg.maxWidth (getIOSSafeCanvasLimits isIOS).maxWidth)
          (min cfg.maxHeight (getIOSSafeCanvasLimits isIOS).maxHeight)).2) :=
      not_lt.mpr (le_trans (Nat.mul_le_mul hw2 hh2) hpx)
    unfold initialMobileDims
    dsimp only
    rw [if_neg hno]

/-- Witness for C9 at concrete inputs: a 100×50 source inside 200×100 bounds
is unchanged; a 5000×3000 source is never upscaled; rounding 2.6 gives 3,
within half a pixel; a 2048×2048 source on the iOS profile skips the pixel
clamp. -/
theorem c9_rounding_no_upscale_witness :
    calculateDimensions 100 50 200 100 = (100, 50) ∧
    ((calculateDimensions 5000 3000 4096 4096).1 ≤ 5000 ∧
      (calculateDimensions 5000 3000 4096 4096).2 ≤ 3000) ∧
    ((13 : ℚ)/5 - 1/2 ≤ (jsRoundNat (13/5) : ℚ) ∧
      (jsRoundNat (13/5) : ℚ) ≤ (13 : ℚ)/5 + 1/2) ∧
    initialMobileDims ⟨2048, 2048⟩ {} (getIOSSafeCanvasLimits true)
        (fun _ => 0) =
      calculateDimensions 2048 2048
        (min 4096 (getIOSSafeCanvasLimits true).maxWidth)
        (min 4096 (getIOSSafeCanvasLimits true).maxHeight) :=
  ⟨c9_rounding_no_upscale.1 100 50 200 100 (by omega) (by omega),
   c9_rounding_no_upscale.2.1 5000 3000 4096 4096,
   c9_rounding_no_upscale.2.2.1 (13/5) (by norm_num),
   c9_rounding_no_upscale.2.2.2 ⟨2048, 2048⟩ {} true (fun _ => 0)⟩

/-! ## Claim C10 — the mobile variant has no fast path -/

/-- C10: even for a file already at or below `maxSizeBytes`,
`forceConvertToJpeg` always decodes (a decode failure is fatal regardless of
the file's size) and, when it succeeds, has executed at least one
render/encode attempt — its result is by construction a canvas-produced blob,
never the source `File` object — and every successful
`processImageForMobile` result has `wasProcessed = true`. -/
theorem c10_no_fast_path (file : JsFile) (cfg : Config) (isIOS : Bool)
    (enc : ℕ → ℕ → ℚ → Option ℕ) (sq : ℚ → ℚ)
    (hsize : file.size ≤ cfg.maxSizeBytes) :
    forceConvertToJpeg file cfg isIOS true none enc sq =
      .error .loadFailed ∧
    (∀ (img : ImgDims) (out : MobileOutcome),
      forceConvertToJpeg file cfg isIOS true (some img) enc sq = .ok out →
        1 ≤ out.attempts) ∧
    (∀ (img : ImgDims) (r : MobileResult),
      processImageForMobile file cfg isIOS true (some img) enc sq = .ok r →
        r.wasProcessed = true) := by
  refine ⟨?_, ?_, ?_⟩
  · unfold forceConvertToJpeg
    rw [if_neg (by simp)]
  · intro img out hrun
    obtain ⟨b, hblob, hout⟩ := forceConvertToJpeg_ok_elim hrun
    rw [hout]
    show 1 ≤ (forceLoop cfg.maxSizeBytes enc sq 15 (mobileInit img cfg isIOS sq)).attempts
    have hstep : ∀ (s : MobileLoopState), s.failed = false → s.done = false →
        s.attempts < 15 →
        (forceStep cfg.maxSizeBytes enc sq s).attempts = s.attempts + 1 := by
      intro s hf hd ha
      dsimp only [forceStep]
      rw [if_neg (by simp [hf, hd]; omega)]
      cases henc : enc s.width s.height s.quality with
      | none => rfl
      | some sz =>
        dsimp only
        split_ifs <;> rfl
    have hfirst : 1 ≤ (forceStep cfg.maxSizeBytes enc sq
        (mobileInit img cfg isIOS sq)).attempts := by
      rw [hstep (mobileInit img cfg isIOS sq) (by simp [mobileInit])
        (by simp [mobileInit]) (by simp [mobileInit])]
      omega
    rw [forceLoop_eq_iterate]
    have h15 : (15 : ℕ) = 14 + 1 := by omega
    rw [h15, Function.iterate_succ_apply]
    exact iterate_preserves (forceStep cfg.maxSizeBytes enc sq)
      (fun t => 1 ≤ t.attempts)
      (fun t ht => le_trans ht
        (forceStep_attempts_mono cfg.maxSizeBytes enc sq t)) 14 _ hfirst
  · intro img r hr
    unfold processImageForMobile at hr
    cases hcall : forceConvertToJpeg file cfg isIOS true (some img) enc sq with
    | error e =>
      rw [hcall] at hr
      exact Except.noConfusion hr
    | ok out =>
      rw [hcall] at hr
      dsimp only at hr
      injection hr with hr
      rw [← hr]

/-- Witness for C10: a 50-byte file under a 100-byte budget is still decoded
and re-encoded (one attempt, encoder answering 40 bytes). -/
theorem c10_no_fast_path_witness :
    forceConvertToJpeg ⟨50⟩ { maxSizeBytes := 100 } false true none
        (fun _ _ _ => some 40) (fun _ => 0) = .error .loadFailed ∧
    1 ≤ MobileOutcome.attempts ⟨⟨40, 1000, 1000⟩, 1⟩ ∧
    MobileResult.wasProcessed ⟨⟨40, 1000, 1000⟩, 50, 40, true⟩ = true := by
  obtain ⟨h1, h2, h3⟩ := c10_no_fast_path ⟨50⟩ { maxSizeBytes := 100 } false
    (fun _ _ _ => some 40) (fun _ => 0) (by norm_num)
  refine ⟨h1, h2 ⟨1000, 1000⟩ ⟨⟨40, 1000, 1000⟩, 1⟩ ?_,
    h3 ⟨1000, 1000⟩ ⟨⟨40, 1000, 1000⟩, 50, 40, true⟩ ?_⟩
  · norm_num [forceConvertToJpeg, forceLoop, mobileInit, initialMobileDims,
      getIOSSafeCanvasLimits, calculateDimensions, forceStep, max_def]
  · norm_num [processImageForMobile, forceConvertToJpeg, forceLoop,
      mobileInit, initialMobileDims, getIOSSafeCanvasLimits,
      calculateDimensions, forceStep, max_def]

end MovingSale
